import Mathlib

/-!
Verification of the unsupervised clustering random-forest embedding pipeline
(`RandomForest2Embedding.py`): synthetic column samplers, the synthetic
feature generator, the discriminative dataset builder, and the embedder's
fit/transform state machine.

Matrices are row-major lists of rows with rational entries. The numpy
random generator is modelled as a deterministic stream of draws derived from
an integer state; `check_random_state` mirrors sklearn's: an integer seed
yields a fresh generator, an existing generator is passed through unchanged
(so state threads across successive sampling calls).
-/

/-- A feature matrix: a list of rows of rational entries. -/
abbrev Mat := List (List ℚ)

/-- State of the random generator (models a numpy RandomState object). -/
abbrev Rng := Nat

/-- Advance the generator, returning a raw draw below 2^31 and the new state. -/
def Rng.next (g : Rng) : Nat × Rng :=
  let g2 := (g * 1103515245 + 12345) % 2147483648
  (g2, g2)

/-- Draw an index below `n` (models `random_state.choice` index selection). -/
def Rng.randBelow (g : Rng) (n : Nat) : Nat × Rng :=
  let p := Rng.next g
  (p.1 % n, p.2)

/-- Draw a rational in `[0, 1)` (models `random_state`'s unit uniform draw). -/
def Rng.randUnit (g : Rng) : ℚ × Rng :=
  let p := Rng.next g
  ((p.1 : ℚ) / 2147483648, p.2)

/-- A `random_state` argument: either an integer seed or a generator object. -/
inductive RandomState
  | seed (n : Nat)
  | gen (g : Rng)

/-- sklearn's `check_random_state`: an int seeds a fresh generator, a
generator object is returned unchanged. -/
def check_random_state : RandomState → Rng
  | RandomState.seed n => n
  | RandomState.gen g => g

/-- `np.min` over a column (0 for an empty column, unused in the source). -/
def listMin : List ℚ → ℚ
  | [] => 0
  | x :: xs => xs.foldl min x

/-- `np.max` over a column (0 for an empty column, unused in the source). -/
def listMax : List ℚ → ℚ
  | [] => 0
  | x :: xs => xs.foldl max x

/-- Column extraction `X[:, j]`. -/
def column (X : Mat) (j : Nat) : List ℚ := X.map (fun r => r.getD j 0)

/-- `random_state.choice(c, size=m, replace=True)`: `m` independent draws
from the entries of `c`, threading the generator state. -/
def drawChoices (c : List ℚ) : Nat → Rng → List ℚ × Rng
  | 0, g => ([], g)
  | m + 1, g =>
    let p := Rng.randBelow g c.length
    let q := drawChoices c m p.2
    (c.getD p.1 0 :: q.1, q.2)

/-- `bootstrap_sample_column(X, n_samples, random_state)`: draw
`n_samples` values (defaulting to the column length when `none`, as Python's
`None`) with replacement from the column. -/
def bootstrap_sample_column (c : List ℚ) (n : Option Nat) (rs : RandomState) :
    List ℚ × Rng :=
  drawChoices c (n.getD c.length) (check_random_state rs)

/-- `m` draws of `random_state.uniform(lo, hi)`: each is `lo + u * (hi - lo)`
with `u` a unit draw, threading the generator state. -/
def drawUniforms (lo hi : ℚ) : Nat → Rng → List ℚ × Rng
  | 0, g => ([], g)
  | m + 1, g =>
    let p := Rng.randUnit g
    let q := drawUniforms lo hi m p.2
    ((lo + p.1 * (hi - lo)) :: q.1, q.2)

/-- `uniform_sample_column(X, n_samples, random_state)`: draw `n_samples`
values uniformly between the column's minimum and maximum. -/
def uniform_sample_column (c : List ℚ) (n : Option Nat) (rs : RandomState) :
    List ℚ × Rng :=
  drawUniforms (listMin c) (listMax c) (n.getD c.length) (check_random_state rs)

/-- The `ValueError` message raised for an unknown sampling method. -/
def invalidMethodMsg : String := "method must be either `bootstrap` or `uniform`."

/-- One iteration of the column loop of `generate_synthetic_features`:
dispatch on the method name (checked per iteration, as in the source's loop
body) and sample the column with the threaded generator; an unknown method
fails before any sampling in that iteration. -/
def sampleOneColumn (X : Mat) (method : String) (j : Nat) (g : Rng) :
    Except String (List ℚ × Rng) :=
  if method = "bootstrap" then
    Except.ok (bootstrap_sample_column (column X j) none (RandomState.gen g))
  else if method = "uniform" then
    Except.ok (uniform_sample_column (column X j) none (RandomState.gen g))
  else Except.error invalidMethodMsg

/-- The column loop of `generate_synthetic_features`: sample each column in
index order, threading the generator; the first failure propagates unchanged
and no partial result is returned. -/
def sampleColumns (X : Mat) (method : String) :
    List Nat → Rng → Except String (List (List ℚ) × Rng)
  | [], g => Except.ok ([], g)
  | j :: js, g =>
    match sampleOneColumn X method j g with
    | Except.error e => Except.error e
    | Except.ok p =>
      match sampleColumns X method js p.2 with
      | Except.error e => Except.error e
      | Except.ok q => Except.ok (p.1 :: q.1, q.2)

/-- `X.shape[1]`: the number of features (columns). -/
def n_features (X : Mat) : Nat := (X.headD []).length

/-- Reassemble a matrix from its list of columns: row `i` takes entry `i`
of every column (the `synth_X[:, column] = ...` assignments). -/
def assembleRows (cs : List (List ℚ)) (n : Nat) : Mat :=
  (List.range n).map (fun i => cs.map (fun c => c.getD i 0))

/-- `generate_synthetic_features(X, method, random_state)`: sample every
column independently by the requested method and assemble a matrix of the
input's shape; an unknown method propagates its error unchanged. -/
def generate_synthetic_features (X : Mat) (method : String) (rs : RandomState) :
    Except String (Mat × Rng) :=
  match sampleColumns X method (List.range (n_features X)) (check_random_state rs) with
  | Except.error e => Except.error e
  | Except.ok q => Except.ok (assembleRows q.1 X.length, q.2)

/-- `np.vstack((X, synth_X))`: real rows first, synthetic rows second. -/
def stackedMatrix (X synth : Mat) : Mat := X ++ synth

/-- `np.concatenate((np.ones(n), np.zeros(n)))`: the pre-permutation label
vector, `n` ones (real rows) followed by `n` zeros (synthetic rows). -/
def preLabels (n : Nat) : List ℚ := List.replicate n 1 ++ List.replicate n 0

/-- Fuelled draw of a random ordering of a list: repeatedly pick a random
position, emit its element, and recurse on the remainder. Models
`random_state.permutation`; the fuel equals the list length at the top call. -/
def permAux : Nat → List Nat → Rng → List Nat × Rng
  | 0, _, g => ([], g)
  | _ + 1, [], g => ([], g)
  | fuel + 1, x :: xs, g =>
    let p := Rng.randBelow g (x :: xs).length
    let rest := (x :: xs).take p.1 ++ (x :: xs).drop (p.1 + 1)
    let q := permAux fuel rest p.2
    ((x :: xs).getD p.1 0 :: q.1, q.2)

/-- `random_state.permutation(np.arange(m))`: a random ordering of the index
range `0, ..., m-1`. -/
def Rng.permutation (g : Rng) (m : Nat) : List Nat × Rng :=
  permAux m (List.range m) g

/-- `generate_discriminative_dataset(X, method, random_state)`: generate the
synthetic matrix with the same generator, stack real rows over synthetic
rows, label them 1 and 0 respectively, then apply one shared random
permutation of all row indices to both the matrix and the labels. -/
def generate_discriminative_dataset (X : Mat) (method : String) (rs : RandomState) :
    Except String ((Mat × List ℚ) × Rng) :=
  match generate_synthetic_features X method (RandomState.gen (check_random_state rs)) with
  | Except.error e => Except.error e
  | Except.ok q =>
    let X2 := stackedMatrix X q.1
    let y2 := preLabels X.length
    let pp := Rng.permutation q.2 X2.length
    Except.ok ((pp.1.map (fun i => X2.getD i []), pp.1.map (fun i => y2.getD i 0)), pp.2)

/-- Modelled from the spec: the external ensemble-classifier capability
("train on (X, y); return a membership matrix for arbitrary rows") is out of
scope of this core and recorded abstractly as the dataset it was trained on. -/
structure TrainedForest where
  trainX : Mat
  trainY : List ℚ

/-- Modelled from the spec: the external classifier's `decision_path` output
is an opaque binary membership matrix with one row per input sample; its
per-node content is out of scope of this core. -/
def decisionPathMembership (_f : TrainedForest) (X : Mat) : Mat :=
  X.map (fun _ => [1])

/-- `calcul_embedding(nodes, n_components)`. Modelled from the spec: the
external manifold capability (TSNE with Hamming metric and a fixed internal
seed) returns one `n_components`-dimensional row per input row; its numeric
content is out of scope of this core. -/
def calcul_embedding (nodes : Mat) (n_components : Nat) : Mat :=
  nodes.map (fun _ => List.replicate n_components 0)

/-- The `RandomForest2Embedding` estimator state: its synthetic-generation
method, its configured random seed, and the trained classifier if a fit has
succeeded (tree hyperparameters are out-of-scope configuration). -/
structure RandomForest2Embedding where
  method : String
  random_state : Option Nat
  fitted : Option TrainedForest

/-- `RandomForest2Embedding(...)`: a freshly constructed estimator has no
trained classifier. -/
def RandomForest2Embedding.new (method : String) (random_state : Option Nat) :
    RandomForest2Embedding :=
  ⟨method, random_state, none⟩

/-- `transform(X, n_components)`: requires a trained classifier. Modelled
from the spec: the fitted-state check lives in the external ensemble
library's `decision_path`, which raises the UndefinedState error when no fit
has succeeded. -/
def RandomForest2Embedding.transform (e : RandomForest2Embedding) (X : Mat)
    (n_components : Nat) : Except String Mat :=
  match e.fitted with
  | none => Except.error "UndefinedState"
  | some f => Except.ok (calcul_embedding (decisionPathMembership f X) n_components)

/-- The discriminative-dataset call made by `fit_transform`:
`generate_discriminative_dataset(X, method=self.method)`, which leaves the
builder's `random_state` parameter at its fixed default seed 1234 and does
not pass the estimator's configured `random_state`. -/
def RandomForest2Embedding.buildDataset (e : RandomForest2Embedding) (X : Mat) :
    Except String ((Mat × List ℚ) × Rng) :=
  generate_discriminative_dataset X e.method (RandomState.seed 1234)

/-- `fit_transform(X, n_components)`: build the discriminative dataset,
train the external classifier on it, and transform the original `X`.
Input validation (`check_array`, sparse index sorting) is external and out
of scope. -/
def RandomForest2Embedding.fit_transform (e : RandomForest2Embedding) (X : Mat)
    (n_components : Nat) : Except String (RandomForest2Embedding × Mat) :=
  match RandomForest2Embedding.buildDataset e X with
  | Except.error er => Except.error er
  | Except.ok q =>
    match RandomForest2Embedding.transform
        ⟨e.method, e.random_state, some ⟨q.1.1, q.1.2⟩⟩ X n_components with
    | Except.error er => Except.error er
    | Except.ok emb =>
      Except.ok (⟨e.method, e.random_state, some ⟨q.1.1, q.1.2⟩⟩, emb)

/-- `fit(X)`: defined as `fit_transform` with its embedding discarded. -/
def RandomForest2Embedding.fit (e : RandomForest2Embedding) (X : Mat) :
    Except String RandomForest2Embedding :=
  Except.map Prod.fst (RandomForest2Embedding.fit_transform e X 2)

theorem randUnit_nonneg (g : Rng) : 0 ≤ (Rng.randUnit g).1 := by
  unfold Rng.randUnit Rng.next
  exact div_nonneg (Nat.cast_nonneg _) (by norm_num)

theorem randUnit_lt_one (g : Rng) : (Rng.randUnit g).1 < 1 := by
  unfold Rng.randUnit Rng.next
  rw [div_lt_one (by norm_num)]
  exact_mod_cast Nat.mod_lt _ (by norm_num)

theorem drawChoices_mem (c : List ℚ) (hc : c ≠ []) :
    ∀ (m : Nat) (g : Rng) (v : ℚ), v ∈ (drawChoices c m g).1 → v ∈ c := by
  intro m
  induction m with
  | zero => intro g v hv; simp [drawChoices] at hv
  | succ k ih =>
    intro g v hv
    have hlen : 0 < c.length := List.length_pos.mpr hc
    simp only [drawChoices, Rng.randBelow] at hv
    rcases List.mem_cons.mp hv with h | h
    · have hi : (Rng.next g).1 % c.length < c.length := Nat.mod_lt _ hlen
      rw [h, List.getD_eq_getElem c 0 hi]
      exact List.getElem_mem hi
    · exact ih _ v h

/-- C5: under the bootstrap strategy, every value of the synthetic column is
an element of the set of values occurring in the original input column, for
every (nonempty) input column and every requested sample count. -/
theorem bootstrap_values_mem (c : List ℚ) (n : Option Nat) (rs : RandomState)
    (hc : c ≠ []) : ∀ v ∈ (bootstrap_sample_column c n rs).1, v ∈ c := by
  intro v hv
  exact drawChoices_mem c hc _ _ v hv

theorem bootstrap_values_mem_witness :
    (bootstrap_sample_column [(3 : ℚ), 7] none (RandomState.seed 0)).1.getD 0 0 ∈ [(3 : ℚ), 7] :=
  bootstrap_values_mem [(3 : ℚ), 7] none (RandomState.seed 0) (by decide) _ (by decide)

theorem drawUniforms_bounds (lo hi : ℚ) (hle : lo ≤ hi) :
    ∀ (m : Nat) (g : Rng) (v : ℚ), v ∈ (drawUniforms lo hi m g).1 → lo ≤ v ∧ v ≤ hi := by
  intro m
  induction m with
  | zero => intro g v hv; simp [drawUniforms] at hv
  | succ k ih =>
    intro g v hv
    simp only [drawUniforms] at hv
    rcases List.mem_cons.mp hv with h | h
    · constructor
      · rw [h]; nlinarith [randUnit_nonneg g, randUnit_lt_one g]
      · rw [h]; nlinarith [randUnit_nonneg g, randUnit_lt_one g]
    · exact ih _ v h

theorem foldl_min_le (xs : List ℚ) (a : ℚ) : xs.foldl min a ≤ a := by
  induction xs generalizing a with
  | nil => simp
  | cons y ys ih => exact le_trans (ih (min a y)) (min_le_left a y)

theorem le_foldl_max (xs : List ℚ) (a : ℚ) : a ≤ xs.foldl max a := by
  induction xs generalizing a with
  | nil => simp
  | cons y ys ih => exact le_trans (le_max_left a y) (ih (max a y))

theorem listMin_le_listMax (c : List ℚ) (hc : c ≠ []) : listMin c ≤ listMax c := by
  cases c with
  | nil => exact absurd rfl hc
  | cons x xs =>
    simp only [listMin, listMax]
    exact le_trans (foldl_min_le xs x) (le_foldl_max xs x)

/-- C6: under the uniform strategy, every value of the synthetic column lies
in the closed interval between the original column's minimum and maximum,
for every nonempty input column and every requested sample count. -/
theorem uniform_values_in_range (c : List ℚ) (n : Option Nat) (rs : RandomState)
    (hc : c ≠ []) :
    ∀ v ∈ (uniform_sample_column c n rs).1, listMin c ≤ v ∧ v ≤ listMax c := by
  intro v hv
  exact drawUniforms_bounds (listMin c) (listMax c) (listMin_le_listMax c hc) _ _ v hv

theorem uniform_values_in_range_witness :
    listMin [(0 : ℚ), 2] ≤ (uniform_sample_column [(0 : ℚ), 2] none (RandomState.seed 0)).1.getD 0 0 ∧
    (uniform_sample_column [(0 : ℚ), 2] none (RandomState.seed 0)).1.getD 0 0 ≤ listMax [(0 : ℚ), 2] :=
  uniform_values_in_range [(0 : ℚ), 2] none (RandomState.seed 0) (by decide) _ (by
    norm_num [uniform_sample_column, drawUniforms, Rng.randUnit, Rng.next,
      check_random_state, listMin, listMax])

theorem sampleOneColumn_valid (X : Mat) (method : String) (j : Nat) (g : Rng)
    (hm : method = "bootstrap" ∨ method = "uniform") :
    ∃ p, sampleOneColumn X method j g = Except.ok p := by
  rcases hm with hm | hm
  · subst hm
    exact ⟨bootstrap_sample_column (column X j) none (RandomState.gen g), rfl⟩
  · subst hm
    exact ⟨uniform_sample_column (column X j) none (RandomState.gen g), rfl⟩

theorem sampleOneColumn_invalid (X : Mat) (method : String) (j : Nat) (g : Rng)
    (hb : method ≠ "bootstrap") (hu : method ≠ "uniform") :
    sampleOneColumn X method j g = Except.error invalidMethodMsg := by
  simp [sampleOneColumn, hb, hu]

theorem sampleColumns_invalid_cons (X : Mat) (method : String) (j : Nat)
    (js : List Nat) (g : Rng) (hb : method ≠ "bootstrap") (hu : method ≠ "uniform") :
    sampleColumns X method (j :: js) g = Except.error invalidMethodMsg := by
  simp [sampleColumns, sampleOneColumn_invalid X method j g hb hu]

theorem sampleColumns_total (X : Mat) (method : String)
    (hm : method = "bootstrap" ∨ method = "uniform") :
    ∀ (js : List Nat) (g : Rng), ∃ q, sampleColumns X method js g = Except.ok q := by
  intro js
  induction js with
  | nil => intro g; exact ⟨([], g), rfl⟩
  | cons j js ih =>
    intro g
    obtain ⟨p, hp⟩ := sampleOneColumn_valid X method j g hm
    obtain ⟨q, hq⟩ := ih p.2
    exact ⟨(p.1 :: q.1, q.2), by simp [sampleColumns, hp, hq]⟩

theorem sampleColumns_length (X : Mat) (method : String) :
    ∀ (js : List Nat) (g : Rng) (q : List (List ℚ) × Rng),
      sampleColumns X method js g = Except.ok q → q.1.length = js.length := by
  intro js
  induction js with
  | nil =>
    intro g q h
    simp only [sampleColumns, Except.ok.injEq] at h
    rw [← h]
    rfl
  | cons j js ih =>
    intro g q h
    cases hp : sampleOneColumn X method j g with
    | error e => simp [sampleColumns, hp] at h
    | ok p =>
      cases hq : sampleColumns X method js p.2 with
      | error e => simp [sampleColumns, hp, hq] at h
      | ok q2 =>
        simp only [sampleColumns, hp, hq, Except.ok.injEq] at h
        rw [← h]
        simp [ih p.2 q2 hq]

theorem generate_synthetic_features_shape (X : Mat) (method : String)
    (rs : RandomState) (synth : Mat) (g2 : Rng)
    (h : generate_synthetic_features X method rs = Except.ok (synth, g2)) :
    synth.length = X.length ∧ ∀ r ∈ synth, r.length = n_features X := by
  unfold generate_synthetic_features at h
  cases hr : sampleColumns X method (List.range (n_features X)) (check_random_state rs) with
  | error e => rw [hr] at h; exact absurd h (by simp)
  | ok q =>
    rw [hr] at h
    simp only [Except.ok.injEq, Prod.mk.injEq] at h
    obtain ⟨h1, _⟩ := h
    subst h1
    constructor
    · simp [assembleRows]
    · intro r hr2
      simp only [assembleRows, List.mem_map] at hr2
      obtain ⟨i, _, hr3⟩ := hr2
      rw [← hr3]
      simp only [List.length_map]
      rw [sampleColumns_length X method (List.range (n_features X)) _ q hr]
      simp

theorem generate_synthetic_features_total (X : Mat) (method : String)
    (rs : RandomState) (hm : method = "bootstrap" ∨ method = "uniform") :
    ∃ synth g2, generate_synthetic_features X method rs = Except.ok (synth, g2) := by
  obtain ⟨q, hq⟩ :=
    sampleColumns_total X method hm (List.range (n_features X)) (check_random_state rs)
  exact ⟨assembleRows q.1 X.length, q.2, by simp [generate_synthetic_features, hq]⟩

/-- C7: for any feature matrix with n rows and f columns and either valid
strategy, the Synthetic Feature Generator returns a synthetic matrix of
shape (n, f): one output column per input column, each sampled to the
input's row count. -/
theorem synthetic_features_output_shape (X : Mat) (method : String)
    (rs : RandomState) (f : Nat) (hm : method = "bootstrap" ∨ method = "uniform")
    (hX : ∀ r ∈ X, r.length = f) :
    ∃ synth g2, generate_synthetic_features X method rs = Except.ok (synth, g2) ∧
      synth.length = X.length ∧ ∀ r ∈ synth, r.length = f := by
  obtain ⟨synth, g2, h⟩ := generate_synthetic_features_total X method rs hm
  obtain ⟨hl, hrow⟩ := generate_synthetic_features_shape X method rs synth g2 h
  refine ⟨synth, g2, h, hl, ?_⟩
  intro r hmem
  rw [hrow r hmem]
  cases X with
  | nil =>
    have hsynth : synth = [] := List.length_eq_zero.mp (by simpa using hl)
    subst hsynth
    simp at hmem
  | cons row rows =>
    have := hX row (by simp)
    simpa [n_features] using this

theorem synthetic_features_output_shape_witness :
    ∃ synth g2,
      generate_synthetic_features [[(1 : ℚ), 2], [3, 4]] "bootstrap" (RandomState.seed 0)
        = Except.ok (synth, g2) ∧
      synth.length = ([[(1 : ℚ), 2], [3, 4]] : Mat).length ∧
      ∀ r ∈ synth, r.length = 2 :=
  synthetic_features_output_shape [[(1 : ℚ), 2], [3, 4]] "bootstrap"
    (RandomState.seed 0) 2 (Or.inl rfl) (by decide)

/-- C2 (amended): for every input matrix with at least one column, an
unrecognized strategy name makes the generator fail with the
InvalidArgument error before any sampling occurs, with no fallback and no
partial matrix; a zero-column matrix is the exception, returning its empty
synthetic matrix without any error. -/
theorem invalid_method_error (X : Mat) (method : String) (rs : RandomState)
    (hf : 0 < n_features X) (hb : method ≠ "bootstrap") (hu : method ≠ "uniform") :
    generate_synthetic_features X method rs = Except.error invalidMethodMsg := by
  unfold generate_synthetic_features
  cases hr : List.range (n_features X) with
  | nil =>
    rw [List.range_eq_nil] at hr
    omega
  | cons j js =>
    rw [sampleColumns_invalid_cons X method j js (check_random_state rs) hb hu]

theorem invalid_method_error_witness :
    generate_synthetic_features [[(1 : ℚ)]] "gaussian" (RandomState.seed 0)
      = Except.error invalidMethodMsg :=
  invalid_method_error [[(1 : ℚ)]] "gaussian" (RandomState.seed 0)
    (by decide) (by decide) (by decide)

/-- C2 counterexample: on a matrix with one row and zero columns, requesting
the unsupported strategy "gaussian" does not fail: the column loop never
runs, so the generator returns an (empty-rowed) synthetic matrix and leaves
the generator state untouched. -/
theorem invalid_method_zero_columns_returns :
    generate_synthetic_features ([[]] : Mat) "gaussian" (RandomState.seed 0)
      = Except.ok ([[]], 0) := rfl

theorem permAux_perm : ∀ (fuel : Nat) (l : List Nat) (g : Rng), l.length ≤ fuel →
    List.Perm (permAux fuel l g).1 l := by
  intro fuel
  induction fuel with
  | zero =>
    intro l g hl
    have hnil : l = [] := List.length_eq_zero.mp (Nat.le_zero.mp hl)
    subst hnil
    simp [permAux]
  | succ k ih =>
    intro l g hl
    cases l with
    | nil => simp [permAux]
    | cons x xs =>
      simp only [permAux]
      have hlen : 0 < (x :: xs).length := by simp
      have hi : (Rng.randBelow g (x :: xs).length).1 < (x :: xs).length :=
        Nat.mod_lt _ hlen
      have hrest_len :
          ((x :: xs).take (Rng.randBelow g (x :: xs).length).1 ++
            (x :: xs).drop ((Rng.randBelow g (x :: xs).length).1 + 1)).length = xs.length := by
        rw [List.length_append, List.length_take, List.length_drop,
          Nat.min_eq_left (Nat.le_of_lt hi)]
        simp only [List.length_cons] at hi ⊢
        omega
      have hrec := ih _ (Rng.randBelow g (x :: xs).length).2 (by
        rw [hrest_len]
        exact Nat.le_of_succ_le_succ hl)
      have hdrop : (x :: xs).drop (Rng.randBelow g (x :: xs).length).1 =
          (x :: xs)[(Rng.randBelow g (x :: xs).length).1] ::
            (x :: xs).drop ((Rng.randBelow g (x :: xs).length).1 + 1) :=
        List.drop_eq_getElem_cons hi
      have hsplit : x :: xs = (x :: xs).take (Rng.randBelow g (x :: xs).length).1 ++
          (x :: xs).drop (Rng.randBelow g (x :: xs).length).1 :=
        (List.take_append_drop _ _).symm
      have key : List.Perm ((x :: xs)[(Rng.randBelow g (x :: xs).length).1] ::
          ((x :: xs).take (Rng.randBelow g (x :: xs).length).1 ++
            (x :: xs).drop ((Rng.randBelow g (x :: xs).length).1 + 1))) (x :: xs) := by
        conv_rhs => rw [hsplit, hdrop]
        exact List.perm_middle.symm
      rw [List.getD_eq_getElem _ _ hi]
      exact List.Perm.trans (List.Perm.cons _ hrec) key

theorem permutation_perm (g : Rng) (m : Nat) :
    List.Perm (Rng.permutation g m).1 (List.range m) :=
  permAux_perm m (List.range m) g (by simp)

theorem map_getD_range {α : Type} (l : List α) (d : α) :
    (List.range l.length).map (fun i => l.getD i d) = l := by
  apply List.ext_getElem (by simp)
  intro i h1 h2
  simp only [List.getElem_map, List.getElem_range]
  exact List.getD_eq_getElem l d h2

theorem preLabels_length (n : Nat) : (preLabels n).length = 2 * n := by
  simp [preLabels, two_mul]

theorem preLabels_count_one (n : Nat) : (preLabels n).count 1 = n := by
  simp [preLabels, List.count_append, List.count_replicate]

theorem preLabels_count_zero (n : Nat) : (preLabels n).count 0 = n := by
  simp [preLabels, List.count_append, List.count_replicate]

theorem generate_synthetic_features_rows_f (X : Mat) (method : String)
    (rs : RandomState) (synth : Mat) (g2 : Rng) (f : Nat)
    (hX : ∀ r ∈ X, r.length = f)
    (h : generate_synthetic_features X method rs = Except.ok (synth, g2)) :
    ∀ r ∈ synth, r.length = f := by
  obtain ⟨hl, hrow⟩ := generate_synthetic_features_shape X method rs synth g2 h
  intro r hmem
  rw [hrow r hmem]
  cases X with
  | nil =>
    have hsynth : synth = [] := List.length_eq_zero.mp (by simpa using hl)
    subst hsynth
    simp at hmem
  | cons row rows =>
    have := hX row (by simp)
    simpa [n_features] using this

/-- C1: the Discriminative Dataset Builder's pre-permutation pair (the
`stackedMatrix` and `preLabels` values it permutes) stacks the real rows of
X first and the synthetic rows second, each half in its original order, and
labels position k with 1 (real) for k < n and with 0 (synthetic) for the
following n positions. -/
theorem prestack_layout (X synth : Mat) (n k : Nat) :
    (k < X.length → (stackedMatrix X synth).getD k [] = X.getD k []) ∧
    (k < synth.length → (stackedMatrix X synth).getD (X.length + k) [] = synth.getD k []) ∧
    (k < n → (preLabels n).getD k 0 = 1) ∧
    (k < n → (preLabels n).getD (n + k) 0 = 0) := by
  refine ⟨?_, ?_, ?_, ?_⟩
  · intro hk
    exact List.getD_append X synth [] k hk
  · intro hk
    have h := List.getD_append_right X synth [] (X.length + k) (Nat.le_add_right _ _)
    simpa using h
  · intro hk
    unfold preLabels
    rw [List.getD_append _ _ 0 k (by simpa using hk),
      List.getD_eq_getElem _ _ (by simpa using hk)]
    simp
  · intro hk
    unfold preLabels
    rw [List.getD_append_right _ _ 0 (n + k) (by simp),
      List.getD_eq_getElem _ _ (by simpa using hk)]
    simp

theorem prestack_layout_witness :
    (stackedMatrix [[(1 : ℚ)]] [[2]]).getD 0 [] = [[(1 : ℚ)]].getD 0 [] ∧
    (stackedMatrix [[(1 : ℚ)]] [[2]]).getD (1 + 0) [] = [[(2 : ℚ)]].getD 0 [] ∧
    (preLabels 1).getD 0 0 = 1 ∧
    (preLabels 1).getD (1 + 0) 0 = 0 :=
  ⟨(prestack_layout [[(1 : ℚ)]] [[2]] 1 0).1 (by decide),
   (prestack_layout [[(1 : ℚ)]] [[2]] 1 0).2.1 (by decide),
   (prestack_layout [[(1 : ℚ)]] [[2]] 1 0).2.2.1 (by decide),
   (prestack_layout [[(1 : ℚ)]] [[2]] 1 0).2.2.2 (by decide)⟩

/-- C3: for every rectangular feature matrix with n rows and f columns and
either valid strategy, the builder's output matrix has shape (2n, f) and
its label vector has length 2n with exactly n ones and n zeros, whatever
permutation was drawn. -/
theorem discriminative_dataset_shapes (X : Mat) (method : String)
    (rs : RandomState) (f : Nat)
    (hm : method = "bootstrap" ∨ method = "uniform")
    (hX : ∀ r ∈ X, r.length = f) :
    ∃ M y gout, generate_discriminative_dataset X method rs = Except.ok ((M, y), gout) ∧
      M.length = 2 * X.length ∧ (∀ r ∈ M, r.length = f) ∧
      y.length = 2 * X.length ∧ y.count 1 = X.length ∧ y.count 0 = X.length := by
  obtain ⟨synth, g1, hs⟩ :=
    generate_synthetic_features_total X method (RandomState.gen (check_random_state rs)) hm
  have hslen := (generate_synthetic_features_shape _ _ _ _ _ hs).1
  have hsrows := generate_synthetic_features_rows_f X method _ synth g1 f hX hs
  have hstlen : (stackedMatrix X synth).length = 2 * X.length := by
    simp [stackedMatrix, hslen, two_mul]
  have hperm := permutation_perm g1 (stackedMatrix X synth).length
  have hplen : (Rng.permutation g1 (stackedMatrix X synth).length).1.length
      = 2 * X.length := by
    rw [hperm.length_eq, List.length_range, hstlen]
  have hy2len : (preLabels X.length).length = (stackedMatrix X synth).length := by
    rw [preLabels_length, hstlen]
  have hyperm : List.Perm
      ((Rng.permutation g1 (stackedMatrix X synth).length).1.map
        (fun i => (preLabels X.length).getD i 0))
      (preLabels X.length) := by
    have h1 := hperm.map (fun i => (preLabels X.length).getD i 0)
    have h2 : (List.range (stackedMatrix X synth).length).map
        (fun i => (preLabels X.length).getD i 0) = preLabels X.length := by
      rw [← hy2len]
      exact map_getD_range (preLabels X.length) 0
    rw [h2] at h1
    exact h1
  refine ⟨(Rng.permutation g1 (stackedMatrix X synth).length).1.map
      (fun i => (stackedMatrix X synth).getD i []),
    (Rng.permutation g1 (stackedMatrix X synth).length).1.map
      (fun i => (preLabels X.length).getD i 0),
    (Rng.permutation g1 (stackedMatrix X synth).length).2, ?_, ?_, ?_, ?_, ?_, ?_⟩
  · unfold generate_discriminative_dataset
    rw [hs]
  · simp [hplen]
  · intro r hr
    simp only [List.mem_map] at hr
    obtain ⟨i, hi, hr2⟩ := hr
    have hi2 : i < (stackedMatrix X synth).length := by
      have := hperm.mem_iff.mp hi
      simpa using this
    rw [← hr2, List.getD_eq_getElem _ _ hi2]
    have hmem : (stackedMatrix X synth)[i] ∈ stackedMatrix X synth :=
      List.getElem_mem hi2
    rcases List.mem_append.mp hmem with h | h
    · exact hX _ h
    · exact hsrows _ h
  · simp [hplen]
  · rw [hyperm.count_eq, preLabels_count_one]
  · rw [hyperm.count_eq, preLabels_count_zero]

theorem discriminative_dataset_shapes_witness :
    ∃ M y gout,
      generate_discriminative_dataset [[(1 : ℚ), 2], [3, 4]] "bootstrap"
        (RandomState.seed 0) = Except.ok ((M, y), gout) ∧
      M.length = 2 * ([[(1 : ℚ), 2], [3, 4]] : Mat).length ∧
      (∀ r ∈ M, r.length = 2) ∧
      y.length = 2 * ([[(1 : ℚ), 2], [3, 4]] : Mat).length ∧
      y.count 1 = ([[(1 : ℚ), 2], [3, 4]] : Mat).length ∧
      y.count 0 = ([[(1 : ℚ), 2], [3, 4]] : Mat).length :=
  discriminative_dataset_shapes [[(1 : ℚ), 2], [3, 4]] "bootstrap"
    (RandomState.seed 0) 2 (Or.inl rfl) (by decide)

/-- C4: the builder draws one permutation of all 2n row indices and applies
it identically to the stacked matrix and to the pre-permutation labels:
the output row at position k is the stacked row at perm k and the output
label at position k is the pre-permutation label at perm k, where perm is a
rearrangement (hence a bijection) of the index range 0, ..., 2n-1. -/
theorem shared_permutation (X : Mat) (method : String) (rs : RandomState)
    (synth : Mat) (g1 : Rng) (M : Mat) (y : List ℚ) (gout : Rng)
    (hs : generate_synthetic_features X method
      (RandomState.gen (check_random_state rs)) = Except.ok (synth, g1))
    (hd : generate_discriminative_dataset X method rs = Except.ok ((M, y), gout)) :
    ∃ perm : List Nat, List.Perm perm (List.range (2 * X.length)) ∧
      M = perm.map (fun i => (stackedMatrix X synth).getD i []) ∧
      y = perm.map (fun i => (preLabels X.length).getD i 0) := by
  have hslen := (generate_synthetic_features_shape _ _ _ _ _ hs).1
  unfold generate_discriminative_dataset at hd
  rw [hs] at hd
  simp only [Except.ok.injEq, Prod.mk.injEq] at hd
  obtain ⟨⟨hM, hy⟩, _⟩ := hd
  refine ⟨(Rng.permutation g1 (stackedMatrix X synth).length).1, ?_, hM.symm, hy.symm⟩
  have h2 : (stackedMatrix X synth).length = 2 * X.length := by
    simp [stackedMatrix, hslen, two_mul]
  exact h2 ▸ permutation_perm g1 (stackedMatrix X synth).length

theorem shared_permutation_witness :
    ∃ perm : List Nat,
      List.Perm perm (List.range (2 * ([[(1 : ℚ)], [2]] : Mat).length)) ∧
      [[(1 : ℚ)], [2], [2], [1]]
        = perm.map (fun i => (stackedMatrix [[(1 : ℚ)], [2]] [[(2 : ℚ)], [1]]).getD i []) ∧
      [(0 : ℚ), 1, 0, 1]
        = perm.map (fun i => (preLabels ([[(1 : ℚ)], [2]] : Mat).length).getD i 0) :=
  shared_permutation [[(1 : ℚ)], [2]] "bootstrap" (RandomState.seed 0)
    [[(2 : ℚ)], [1]] 1406932606 [[(1 : ℚ)], [2], [2], [1]] [(0 : ℚ), 1, 0, 1]
    1109335178 rfl rfl

/-- C8: the builder's result is a function of the input matrix, the method
name and the generator state derived from the seed alone, so two calls with
the same fixed seed, strategy and X produce identical (matrix, labels)
pairs. -/
theorem builder_deterministic (X : Mat) (method : String) (rs1 rs2 : RandomState)
    (h : check_random_state rs1 = check_random_state rs2) :
    generate_discriminative_dataset X method rs1
      = generate_discriminative_dataset X method rs2 := by
  unfold generate_discriminative_dataset
  rw [h]

theorem builder_deterministic_witness :
    generate_discriminative_dataset [[(1 : ℚ)]] "bootstrap" (RandomState.seed 1234)
      = generate_discriminative_dataset [[(1 : ℚ)]] "bootstrap" (RandomState.seed 1234) :=
  builder_deterministic [[(1 : ℚ)]] "bootstrap" (RandomState.seed 1234)
    (RandomState.seed 1234) rfl

/-- C9: transform on a freshly constructed embedder, on which no fit has
ever succeeded, fails with the UndefinedState error for every input matrix
and every component count. -/
theorem transform_unfitted (method : String) (rs : Option Nat) (X : Mat) (nc : Nat) :
    RandomForest2Embedding.transform (RandomForest2Embedding.new method rs) X nc
      = Except.error "UndefinedState" := rfl

/-- C10: fit_transform builds its discriminative dataset through
`buildDataset`, which calls the builder with the builder's fixed default
seed 1234 and never passes the embedder's configured random_state; hence the
dataset, and the training data recorded by fitting, are identical across two
embedders that differ only in their configured random_state. -/
theorem fit_transform_seed_independent (m : String) (rs1 rs2 : Option Nat) (X : Mat) :
    RandomForest2Embedding.buildDataset (RandomForest2Embedding.new m rs1) X
      = generate_discriminative_dataset X m (RandomState.seed 1234) ∧
    RandomForest2Embedding.buildDataset (RandomForest2Embedding.new m rs1) X
      = RandomForest2Embedding.buildDataset (RandomForest2Embedding.new m rs2) X ∧
    Except.map (fun p => p.1.fitted)
        (RandomForest2Embedding.fit_transform (RandomForest2Embedding.new m rs1) X 2)
      = Except.map (fun p => p.1.fitted)
        (RandomForest2Embedding.fit_transform (RandomForest2Embedding.new m rs2) X 2) := by
  refine ⟨rfl, rfl, ?_⟩
  unfold RandomForest2Embedding.fit_transform
  cases hq : RandomForest2Embedding.buildDataset (RandomForest2Embedding.new m rs1) X with
  | error e =>
    have hq2 : RandomForest2Embedding.buildDataset (RandomForest2Embedding.new m rs2) X
        = Except.error e := hq
    simp [hq, hq2]
  | ok q =>
    have hq2 : RandomForest2Embedding.buildDataset (RandomForest2Embedding.new m rs2) X
        = Except.ok q := hq
    simp only [hq, hq2, RandomForest2Embedding.transform]
    rfl
